import Mathlib

/-!
Verification of the SQL text-analysis helpers and scorer arithmetic of the
repository (src/src/mastra/tools/sql-tool.ts and the scorer module).

Strings are modelled as `List Char`.  JavaScript semantics are embedded as
follows: the character class \s is `isWS` (the ECMAScript WhiteSpace and
LineTerminator set), \w is `isWordChar` (ASCII letters, digits, underscore,
as in JavaScript regular expressions without the unicode flag),
`String.prototype.toUpperCase`/`toLowerCase` are modelled by the ASCII case
maps (the keywords involved are all ASCII), and regular-expression matching
of the concrete patterns appearing in the source is implemented by explicit
left-to-right scans with the same match semantics (leftmost match,
non-overlapping global replacement, greedy quantifiers over the concrete
patterns, word boundaries computed from `isWordChar`).
-/

def nl : Char := Char.ofNat 10

def sp : Char := Char.ofNat 32

def apos : Char := Char.ofNat 39

def dq : Char := Char.ofNat 34

/-- The ECMAScript \s character set (WhiteSpace ∪ LineTerminator). -/
def isWS (c : Char) : Bool :=
  c.toNat = 9 || c.toNat = 10 || c.toNat = 11 || c.toNat = 12 || c.toNat = 13 ||
  c.toNat = 32 || c.toNat = 160 || c.toNat = 5760 ||
  (8192 ≤ c.toNat && c.toNat ≤ 8202) || c.toNat = 8232 || c.toNat = 8233 ||
  c.toNat = 8239 || c.toNat = 8287 || c.toNat = 12288 || c.toNat = 65279

/-- The ECMAScript \w character set (regular expressions without the u flag). -/
def isWordChar (c : Char) : Bool :=
  (65 ≤ c.toNat && c.toNat ≤ 90) || (97 ≤ c.toNat && c.toNat ≤ 122) ||
  (48 ≤ c.toNat && c.toNat ≤ 57) || c.toNat = 95

/-- ASCII upper-case map (model of toUpperCase, pointwise). -/
def upperChar (c : Char) : Char :=
  if 97 ≤ c.toNat && c.toNat ≤ 122 then Char.ofNat (c.toNat - 32) else c

/-- ASCII lower-case map (model of toLowerCase, pointwise). -/
def lowerChar (c : Char) : Char :=
  if 65 ≤ c.toNat && c.toNat ≤ 90 then Char.ofNat (c.toNat + 32) else c

/-- String literal to character list. -/
def lc (s : String) : List Char := s.data

/-- Exact prefix test. -/
def swStr : List Char → List Char → Bool
  | [], _ => true
  | _ :: _, [] => false
  | k :: ks, c :: cs => (k == c) && swStr ks cs

/-- Substring test, model of String.prototype.includes. -/
def containsStr (needle : List Char) : List Char → Bool
  | [] => swStr needle []
  | c :: cs => swStr needle (c :: cs) || containsStr needle cs

/-- Case-insensitive prefix test: the pattern (given in upper case) against
the text, comparing through the ASCII upper-case map. -/
def swCI : List Char → List Char → Bool
  | [], _ => true
  | _ :: _, [] => false
  | k :: ks, c :: cs => (upperChar c == k) && swCI ks cs

/-- Model of String.prototype.trim. -/
def trimJS (s : List Char) : List Char :=
  ((s.dropWhile isWS).reverse.dropWhile isWS).reverse

/-- Does the list start with a word character (out of range counts as no)? -/
def wordAt : List Char → Bool
  | [] => false
  | c :: _ => isWordChar c

/-- Does the list start with a whitespace character? -/
def wsAt : List Char → Bool
  | [] => false
  | c :: _ => isWS c

/-- One step of replace(/\s+/g, " "): each maximal whitespace run becomes a
single space; the flag records whether the previous character was whitespace. -/
def collapseAux : Bool → List Char → List Char
  | _, [] => []
  | b, c :: cs =>
    if isWS c then (if b then collapseAux true cs else sp :: collapseAux true cs)
    else c :: collapseAux false cs

/-- Model of sql.replace(/\s+/g, " ").trim() from formatSQL. -/
def collapseWs (s : List Char) : List Char := trimJS (collapseAux false s)

/-- Model of formatted.replace(new RegExp("\\b" + kw + "\\b", "gi"),
"\n" + kw.toUpperCase()) for a keyword made of word characters and single
internal spaces, starting and ending with a word character.  The scan walks
left to right; `b` says whether the previous character is a word character
(false at the start of the string).  A match requires a word boundary on both
sides; on a match the replacement "\n" ++ kw is emitted and scanning resumes
after the matched text, as a global JavaScript replace does. -/
def replKw (kw : List Char) (b : Bool) (s : List Char) : List Char :=
  match s with
  | [] => []
  | c :: cs =>
    if kw.isEmpty then c :: replKw kw (isWordChar c) cs
    else if (b != isWordChar c) && swCI kw (c :: cs) &&
        (wordAt (cs.drop (kw.length - 1)) != isWordChar (kw.getLastD c))
    then nl :: (kw ++ replKw kw (isWordChar (kw.getLastD c)) (cs.drop (kw.length - 1)))
    else c :: replKw kw (isWordChar c) cs
termination_by s.length
decreasing_by
  all_goals simp
  all_goals omega

/-- The ordered keyword list of formatSQL. -/
def fmtKeywords : List (List Char) :=
  [lc "SELECT", lc "FROM", lc "WHERE", lc "JOIN", lc "INNER JOIN",
   lc "LEFT JOIN", lc "RIGHT JOIN", lc "GROUP BY", lc "HAVING",
   lc "ORDER BY", lc "LIMIT", lc "OFFSET", lc "INSERT INTO", lc "VALUES",
   lc "UPDATE", lc "SET", lc "DELETE FROM"]

/-- Split on the newline character (model of split("\n")). -/
def splitNl : List Char → List (List Char)
  | [] => [[]]
  | c :: cs =>
    if c == nl then [] :: splitNl cs
    else
      match splitNl cs with
      | [] => [[c]]
      | l :: ls => (c :: l) :: ls

/-- Join with the newline character (model of join("\n")). -/
def joinNl : List (List Char) → List Char
  | [] => []
  | [l] => l
  | l :: ls => l ++ nl :: joinNl ls

/-- Model of formatSQL from sql-tool.ts. -/
def formatSQL (sql : List Char) : List Char :=
  let r := fmtKeywords.foldl (fun acc kw => replKw kw false acc) (collapseWs sql)
  joinNl (((splitNl r).map trimJS).filter (fun l => !l.isEmpty))

/-- The validator keyword list. -/
def sqlKeywords : List (List Char) :=
  [lc "SELECT", lc "INSERT", lc "UPDATE", lc "DELETE", lc "CREATE",
   lc "DROP", lc "ALTER", lc "FROM", lc "WHERE", lc "JOIN"]

/-- Does CROSS\s+JOIN match at the head of the list? -/
def crossWsJoinAt (s : List Char) : Bool :=
  swStr (lc "CROSS") s &&
    (let r := s.drop 5
     wsAt r && swStr (lc "JOIN") (r.dropWhile isWS))

/-- Does the text contain a match of CROSS\s+JOIN? -/
def crossWsJoin : List Char → Bool
  | [] => false
  | c :: cs => crossWsJoinAt (c :: cs) || crossWsJoin cs

/-- Model of upperText.match(/INNER|LEFT|RIGHT|FULL|CROSS\s+JOIN/) tested for
success: the alternation matches somewhere iff one of the first four literals
occurs as a substring or CROSS\s+JOIN matches somewhere. -/
def joinTypeRegex (up : List Char) : Bool :=
  containsStr (lc "INNER") up || containsStr (lc "LEFT") up ||
  containsStr (lc "RIGHT") up || containsStr (lc "FULL") up || crossWsJoin up

structure VResult where
  isValid : Bool
  formatted : List Char
  warnings : List (List Char)
  suggestions : List (List Char)
deriving Repr, DecidableEq

def noKeywordsWarning : List Char := lc "Query does not contain standard SQL keywords"

def selectStarWarning : List Char :=
  lc "Using SELECT * can impact performance. Consider specifying columns explicitly."

def updateDeleteWarning : List Char :=
  lc "UPDATE/DELETE without WHERE clause will affect all rows. Be cautious!"

def joinSuggestion : List Char :=
  lc "Consider using explicit JOIN type (INNER, LEFT, RIGHT, etc.) for clarity"

def pgSuggestion : List Char :=
  lc "PostgreSQL supports RETURNING clause for INSERT/UPDATE/DELETE operations"

def mysqlSuggestion : List Char := lc "MySQL supports LIMIT clause for result pagination"

/-- Model of validateSQL from sql-tool.ts.  Warnings and suggestions are
accumulated in the push order of the source. -/
def validateSQL (sql : List Char) (dialect : List Char) : VResult :=
  let trimmed := trimJS sql
  let up := trimmed.map upperChar
  let hasKw := sqlKeywords.any (fun kw => containsStr kw up)
  let w1 : List (List Char) := if hasKw then [] else [noKeywordsWarning]
  let w2 : List (List Char) :=
    if containsStr (lc "SELECT *") up then [selectStarWarning] else []
  let w3 : List (List Char) :=
    if (containsStr (lc "UPDATE") up || containsStr (lc "DELETE") up) &&
        !containsStr (lc "WHERE") up
    then [updateDeleteWarning] else []
  let s1 : List (List Char) :=
    if containsStr (lc "JOIN") up && !joinTypeRegex up then [joinSuggestion] else []
  let s2 : List (List Char) :=
    if dialect == lc "postgresql" then [pgSuggestion]
    else if dialect == lc "mysql" then [mysqlSuggestion] else []
  { isValid := hasKw
    formatted := formatSQL trimmed
    warnings := w1 ++ w2 ++ w3
    suggestions := s1 ++ s2 }

/-- Existence of a match: tries the predicate at every suffix, left to right. -/
def scanAny (p : List Char → Bool) : List Char → Bool
  | [] => p []
  | c :: cs => p (c :: cs) || scanAny p cs

/-- Case-insensitive substring test for an upper-case pattern. -/
def containsCI (needle : List Char) (hay : List Char) : Bool :=
  scanAny (swCI needle) hay

def starCh : Char := Char.ofNat 42

def commaCh : Char := Char.ofNat 44

def pctCh : Char := Char.ofNat 37

/-- The ECMAScript LineTerminator set (what . does not match). -/
def isLineTerm (c : Char) : Bool :=
  c.toNat = 10 || c.toNat = 13 || c.toNat = 8232 || c.toNat = 8233

/-- Does /SELECT\s+\*/i match at the head of the list? -/
def selStarAt (s : List Char) : Bool :=
  swCI (lc "SELECT") s &&
    (let r := s.drop 6
     wsAt r &&
       match r.dropWhile isWS with
       | c :: _ => c == starCh
       | [] => false)

/-- Model of sql.match(/SELECT\s+\*/i) tested for success. -/
def selStarMatch (s : List Char) : Bool := scanAny selStarAt s

/-- Does /FROM\s+(\w+)/i match at the head of the list? -/
def fromMatchAt (s : List Char) : Bool :=
  swCI (lc "FROM") s && (let r := s.drop 4; wsAt r && wordAt (r.dropWhile isWS))

/-- Model of sql.match(/FROM\s+(\w+)/i): the capture of the leftmost match,
if any.  The \s+ run is taken greedily and the capture is the maximal word
run following it, exactly as the backtracking regex engine behaves on this
pattern. -/
def fromCap : List Char → Option (List Char)
  | [] => none
  | c :: cs =>
    if fromMatchAt (c :: cs) then
      some (((cs.drop 3).dropWhile isWS).takeWhile isWordChar)
    else fromCap cs

structure Component where
  part : List Char
  description : List Char
deriving Repr, DecidableEq

structure EResult where
  explanation : List Char
  components : List Component
deriving Repr, DecidableEq

/-- The explanation fragment of the exclusive DML if/else-if chain of
explainSQL (first truthy wins, in the order SELECT, INSERT, UPDATE, DELETE). -/
def dmlExp (sql : List Char) : List Char :=
  if containsStr (lc "SELECT") (sql.map upperChar) then lc "retrieves data "
  else if containsStr (lc "INSERT") (sql.map upperChar) then lc "inserts new data "
  else if containsStr (lc "UPDATE") (sql.map upperChar) then lc "modifies existing data "
  else if containsStr (lc "DELETE") (sql.map upperChar) then lc "removes data "
  else []

/-- The components pushed by the exclusive DML if/else-if chain of explainSQL
(the SELECT branch also pushes a SELECT * component when /SELECT\s+\*/i
matches). -/
def dmlComp (sql : List Char) : List Component :=
  if containsStr (lc "SELECT") (sql.map upperChar) then
    ⟨lc "SELECT", lc "Specifies which columns to retrieve"⟩ ::
      (if selStarMatch sql then
        [⟨lc "SELECT *", lc "Selects all columns from the table"⟩]
      else [])
  else if containsStr (lc "INSERT") (sql.map upperChar) then
    [⟨lc "INSERT", lc "Adds new rows to a table"⟩]
  else if containsStr (lc "UPDATE") (sql.map upperChar) then
    [⟨lc "UPDATE", lc "Changes existing rows in a table"⟩]
  else if containsStr (lc "DELETE") (sql.map upperChar) then
    [⟨lc "DELETE", lc "Removes rows from a table"⟩]
  else []

/-- The explanation fragment of the FROM block of explainSQL. -/
def fromExp (sql : List Char) : List Char :=
  match fromCap sql with
  | some name => lc "from the " ++ [dq] ++ name ++ [dq] ++ lc " table "
  | none => []

/-- The component pushed by the FROM block of explainSQL. -/
def fromComp (sql : List Char) : List Component :=
  match fromCap sql with
  | some name => [⟨lc "FROM", lc "Specifies the source table: " ++ name⟩]
  | none => []

def whereExp (sql : List Char) : List Char :=
  if containsStr (lc "WHERE") (sql.map upperChar) then lc "with specific conditions " else []

def whereComp (sql : List Char) : List Component :=
  if containsStr (lc "WHERE") (sql.map upperChar) then
    [⟨lc "WHERE", lc "Filters rows based on specified conditions"⟩] else []

def joinExp (sql : List Char) : List Char :=
  if containsStr (lc "JOIN") (sql.map upperChar) then
    lc "by combining data from multiple tables " else []

def joinComp (sql : List Char) : List Component :=
  if containsStr (lc "JOIN") (sql.map upperChar) then
    [⟨lc "JOIN", lc "Combines rows from two or more tables based on related columns"⟩] else []

def groupExp (sql : List Char) : List Char :=
  if containsStr (lc "GROUP BY") (sql.map upperChar) then
    lc "and groups results by specific columns " else []

def groupComp (sql : List Char) : List Component :=
  if containsStr (lc "GROUP BY") (sql.map upperChar) then
    [⟨lc "GROUP BY", lc "Groups rows that have the same values in specified columns"⟩] else []

def orderExp (sql : List Char) : List Char :=
  if containsStr (lc "ORDER BY") (sql.map upperChar) then lc "and sorts the results " else []

def orderComp (sql : List Char) : List Component :=
  if containsStr (lc "ORDER BY") (sql.map upperChar) then
    [⟨lc "ORDER BY", lc "Sorts the result set by specified columns"⟩] else []

def limitExp (sql : List Char) : List Char :=
  if containsStr (lc "LIMIT") (sql.map upperChar) then
    lc "and limits the number of results returned" else []

def limitComp (sql : List Char) : List Component :=
  if containsStr (lc "LIMIT") (sql.map upperChar) then
    [⟨lc "LIMIT", lc "Restricts the number of rows returned"⟩] else []

/-- Model of explainSQL from sql-tool.ts.  The four DML keywords are an
exclusive if/else-if chain; the remaining checks are independent; the
explanation string and the component list accumulate in source order, here
factored into one named block per clause check with the source conditions. -/
def explainSQL (sql : List Char) : EResult :=
  { explanation := lc "This SQL query " ++ dmlExp sql ++ fromExp sql ++ whereExp sql ++
      joinExp sql ++ groupExp sql ++ orderExp sql ++ limitExp sql
    components := dmlComp sql ++ fromComp sql ++ whereComp sql ++ joinComp sql ++
      groupComp sql ++ orderComp sql ++ limitComp sql }

structure SchemaInfo where
  commonColumns : List (List Char)
  relationships : List (List Char)
  examples : List (List Char)
deriving Repr, DecidableEq

/-- The value produced by the JavaScript lookup schemas[lowerTableType]: either
a schema record (an own property of the literal, or the fallback record), or a
value inherited from Object.prototype.  The object literal inherits from
Object.prototype, so keys such as "constructor" and "__proto__" (the only
Object.prototype property names that are all lower case, hence reachable after
toLowerCase) yield a truthy non-record value, which the || fallback does not
replace and the function returns as is. -/
inductive SchemaLookup where
  | record (s : SchemaInfo)
  | inherited (key : List Char)
deriving Repr, DecidableEq

def usersSchema : SchemaInfo :=
  { commonColumns := [lc "id", lc "username", lc "email", lc "password_hash",
      lc "created_at", lc "updated_at", lc "first_name", lc "last_name", lc "is_active"]
    relationships := [lc "users have many orders", lc "users have many posts",
      lc "users belong to many roles"]
    examples :=
      [lc "SELECT * FROM users WHERE email = " ++ [apos] ++ lc "user@example.com" ++ [apos],
       lc "SELECT id, username, email FROM users WHERE is_active = true ORDER BY created_at DESC",
       lc "SELECT COUNT(*) FROM users WHERE created_at > " ++ [apos] ++ lc "2024-01-01" ++ [apos]] }

def productsSchema : SchemaInfo :=
  { commonColumns := [lc "id", lc "name", lc "description", lc "price",
      lc "stock_quantity", lc "category_id", lc "sku", lc "created_at", lc "updated_at"]
    relationships := [lc "products belong to categories",
      lc "products have many order_items", lc "products have many reviews"]
    examples :=
      [lc "SELECT * FROM products WHERE price < 100 AND stock_quantity > 0",
       lc "SELECT name, price FROM products WHERE category_id = 5 ORDER BY price ASC",
       lc "SELECT AVG(price) as avg_price FROM products GROUP BY category_id"] }

def ordersSchema : SchemaInfo :=
  { commonColumns := [lc "id", lc "user_id", lc "total_amount", lc "status",
      lc "order_date", lc "shipping_address", lc "payment_method", lc "created_at"]
    relationships := [lc "orders belong to users", lc "orders have many order_items",
      lc "orders have one payment"]
    examples :=
      [lc "SELECT * FROM orders WHERE user_id = 123 ORDER BY order_date DESC",
       lc "SELECT COUNT(*) as order_count, SUM(total_amount) as total_revenue FROM orders WHERE status = " ++
         [apos] ++ lc "completed" ++ [apos],
       lc "SELECT o.id, u.username FROM orders o JOIN users u ON o.user_id = u.id"] }

/-- Model of getSchemaInfo from sql-tool.ts, including the JavaScript property
lookup semantics on the object literal (see SchemaLookup). -/
def getSchemaInfo (tableType : List Char) : SchemaLookup :=
  let lower := tableType.map lowerChar
  if lower == lc "users" then .record usersSchema
  else if lower == lc "products" then .record productsSchema
  else if lower == lc "orders" then .record ordersSchema
  else if lower == lc "constructor" || lower == lc "__proto__" then .inherited lower
  else .record
    { commonColumns := [lc "id", lc "name", lc "created_at", lc "updated_at"]
      relationships := [lc "Depends on your specific database schema"]
      examples := [lc "SELECT * FROM " ++ tableType ++ lc " LIMIT 10"] }

/-- Does /%.*LIKE/i match at the head of the list (the dot does not cross a
line terminator; LIKE itself contains no line terminator, so a match from
this position exists iff LIKE occurs in the terminator-free region after
the percent sign)? -/
def pctLikeAt (s : List Char) : Bool :=
  match s with
  | c :: cs => c == pctCh && containsCI (lc "LIKE") (cs.takeWhile (fun d => !isLineTerm d))
  | [] => false

/-- Model of sql.match(/%.*LIKE/i) tested for success. -/
def pctLike (s : List Char) : Bool := scanAny pctLikeAt s

/-- Does /WHERE.*OR/ match at the head of the list (applied to the upper-cased
text in the source)? -/
def whereOrAt (s : List Char) : Bool :=
  swStr (lc "WHERE") s &&
    containsStr (lc "OR") ((s.drop 5).takeWhile (fun d => !isLineTerm d))

/-- Model of upperSql.match(/WHERE.*OR/) tested for success. -/
def whereOr (s : List Char) : Bool := scanAny whereOrAt s

/-- Does /FROM\s+\w+\s*,\s*\w+/i match at the head of the list?  Greedy runs
followed by literal characters make the backtracking search equivalent to
taking each run maximally. -/
def fromCommaAt (s : List Char) : Bool :=
  swCI (lc "FROM") s &&
    (let r := s.drop 4
     wsAt r &&
       (let r1 := r.dropWhile isWS
        wordAt r1 &&
          match (r1.dropWhile isWordChar).dropWhile isWS with
          | c :: cs2 => c == commaCh && wordAt (cs2.dropWhile isWS)
          | [] => false))

/-- Model of sql.match(/FROM\s+\w+\s*,\s*\w+/i) tested for success. -/
def fromComma (s : List Char) : Bool := scanAny fromCommaAt s

/-- Model of sql.replace(/NOT IN/gi, "NOT EXISTS"): global left-to-right
non-overlapping case-insensitive replacement. -/
def replaceNotIn : List Char → List Char
  | [] => []
  | c :: cs =>
    if swCI (lc "NOT IN") (c :: cs) then lc "NOT EXISTS" ++ replaceNotIn (cs.drop 5)
    else c :: replaceNotIn cs
termination_by s => s.length
decreasing_by
  all_goals simp
  all_goals omega

structure OResult where
  optimized : List Char
  improvements : List (List Char)
  performance : List Char
deriving Repr, DecidableEq

def explainNote : List Char :=
  lc "Use EXPLAIN or EXPLAIN ANALYZE to understand query execution plan"

def multiPerf : List Char := lc "This query has multiple optimization opportunities"

def relOptPerf : List Char := lc "This query looks relatively optimized"

/-- Model of optimizeSQL from sql-tool.ts. -/
def optimizeSQL (sql : List Char) : OResult :=
  let up := sql.map upperChar
  let i1 : List (List Char) :=
    if containsStr (lc "SELECT *") up then
      [lc "Replace SELECT * with specific column names to reduce data transfer"] else []
  let i2 : List (List Char) :=
    if containsStr (lc "WHERE") up then
      [lc "Ensure columns used in WHERE clause are indexed"] else []
  let i3 : List (List Char) :=
    if pctLike sql then
      [lc "LIKE patterns starting with % cannot use indexes efficiently"] else []
  let hasNotIn := containsStr (lc "NOT IN") up
  let i4 : List (List Char) :=
    if hasNotIn then [lc "Replaced NOT IN with NOT EXISTS for better performance"] else []
  let i5 : List (List Char) :=
    if whereOr up then
      [lc "Consider breaking OR conditions into UNION queries for better index usage"] else []
  let i6 : List (List Char) :=
    if fromComma sql then
      [lc "Use explicit JOIN syntax instead of comma-separated tables for clarity"] else []
  let improvements := i1 ++ i2 ++ i3 ++ i4 ++ i5 ++ i6 ++ [explainNote]
  { optimized := if hasNotIn then replaceNotIn sql else sql
    improvements := improvements
    performance := if improvements.length > 2 then multiPerf else relOptPerf }

/-- The analyze-step verdict of the intent-match scorer; every field may be
missing, as the scorer reads it from an untrusted judge JSON. -/
structure IntentVerdict where
  matchesIntent : Option Bool
  confidence : Option ℚ
deriving Repr, DecidableEq

/-- JavaScript truthiness of an optional boolean field. -/
def truthy : Option Bool → Bool
  | some true => true
  | _ => false

/-- Model of the intent-match scorer's generateScore:
r.matchesIntent ? (r.confidence ?? 0.9) : 0.2. -/
def intentScore (r : IntentVerdict) : ℚ :=
  if truthy r.matchesIntent then r.confidence.getD (9/10) else 1/5

/-- The analyze-step verdict of the correctness scorer; every field may be
missing. -/
structure CorrectnessVerdict where
  isSyntacticallyCorrect : Option Bool
  hasBestPractices : Option Bool
  securityIssues : Option (List (List Char))
  confidence : Option ℚ
deriving Repr, DecidableEq

/-- Truthiness of an optional array field combined with a non-emptiness test:
r.securityIssues && r.securityIssues.length > 0. -/
def issuesNonempty : Option (List (List Char)) → Bool
  | some l => l.length > 0
  | none => false

/-- Model of the correctness scorer's generateScore: score starts at 1.0,
loses 0.5 unless isSyntacticallyCorrect is truthy, 0.2 unless
hasBestPractices is truthy, 0.3 if securityIssues is a non-empty array, and
the result is Math.max(0, Math.min(1, score * (r.confidence ?? 1))). -/
def correctnessScore (r : CorrectnessVerdict) : ℚ :=
  let s0 : ℚ := 1
  let s1 := if truthy r.isSyntacticallyCorrect then s0 else s0 - 1/2
  let s2 := if truthy r.hasBestPractices then s1 else s1 - 1/5
  let s3 := if issuesNonempty r.securityIssues then s2 - 3/10 else s2
  max 0 (min 1 (s3 * (r.confidence.getD 1)))

/-- The four DML component tags of the explainer. -/
def dmlParts : List (List Char) :=
  [lc "SELECT", lc "INSERT", lc "UPDATE", lc "DELETE"]

/-- The first keyword of the fixed order SELECT, INSERT, UPDATE, DELETE that
occurs case-insensitively in the input (the claim's description of the
exclusive DML branch of the explainer). -/
def specFirstDml (sql : List Char) : Option (List Char) :=
  (dmlParts.filter (fun k => containsStr k (sql.map upperChar))).head?

/-- The six non-DML component tags of the explainer, in checking order. -/
def sixParts : List (List Char) :=
  [lc "FROM", lc "WHERE", lc "JOIN", lc "GROUP BY", lc "ORDER BY", lc "LIMIT"]

/-- Does the given join-type keyword occur at the head, immediately followed
by whitespace and then JOIN (all case-insensitively)? -/
def joinTypeBeforeJoinAt (kw : List Char) (s : List Char) : Bool :=
  swCI kw s && (let r := s.drop kw.length; wsAt r && swCI (lc "JOIN") (r.dropWhile isWS))

/-- The claim's reading of the validator's join check: some explicit join-type
keyword occurs immediately before a JOIN somewhere in the text. -/
def specJoinTypePrecedes (s : List Char) : Bool :=
  [lc "INNER", lc "LEFT", lc "RIGHT", lc "FULL", lc "CROSS"].any
    (fun kw => scanAny (joinTypeBeforeJoinAt kw) s)

/- ## Theorems -/

theorem if_filter_seg (q : List Char → Bool) (c : Bool) (x : Component)
    (h : q x.part = false) :
    (((if c then [x] else []).map Component.part).filter q) = [] := by
  cases c <;> simp [List.filter_cons, h]

theorem if_filter_keep (q : List Char → Bool) (c : Bool) (x : Component)
    (h : q x.part = true) :
    (((if c then [x] else []).map Component.part).filter q) =
      (if c then [x.part] else []) := by
  cases c <;> simp [List.filter_cons, h]

theorem dml_filter (sql : List Char) :
    ((dmlComp sql).map Component.part).filter (fun p => dmlParts.contains p) =
      (specFirstDml sql).toList := by
  unfold dmlComp specFirstDml dmlParts
  split_ifs <;> simp_all [List.filter_cons] <;> decide

theorem from_filter_dml (sql : List Char) :
    ((fromComp sql).map Component.part).filter (fun p => dmlParts.contains p) = [] := by
  unfold fromComp
  cases fromCap sql <;> simp <;> decide

theorem dml_filter_six (sql : List Char) :
    ((dmlComp sql).map Component.part).filter (fun p => sixParts.contains p) = [] := by
  unfold dmlComp
  split_ifs <;> simp [List.filter_cons] <;> decide

theorem from_filter_six (sql : List Char) :
    ((fromComp sql).map Component.part).filter (fun p => sixParts.contains p) =
      (if (fromCap sql).isSome then [lc "FROM"] else []) := by
  unfold fromComp
  cases fromCap sql <;> simp [List.filter_cons] <;> decide

/-- Claim C3: the explainer's component list carries at most one of the tags
SELECT, INSERT, UPDATE, DELETE, namely the first of that fixed order whose
keyword occurs case-insensitively in the input; the six remaining tags are
produced by independent checks and appear in the fixed order FROM, WHERE,
JOIN, GROUP BY, ORDER BY, LIMIT; and on the concrete query
"SELECT id FROM users WHERE active=true ORDER BY id" the tags are exactly
SELECT, FROM, WHERE, ORDER BY in that order. -/
theorem explainSQL_components_structure (sql : List Char) :
    (((explainSQL sql).components.map Component.part).filter
        (fun p => dmlParts.contains p) = (specFirstDml sql).toList) ∧
    (((explainSQL sql).components.map Component.part).filter
        (fun p => dmlParts.contains p)).length ≤ 1 ∧
    (((explainSQL sql).components.map Component.part).filter
        (fun p => sixParts.contains p) =
      (if (fromCap sql).isSome then [lc "FROM"] else []) ++
      (if containsStr (lc "WHERE") (sql.map upperChar) then [lc "WHERE"] else []) ++
      (if containsStr (lc "JOIN") (sql.map upperChar) then [lc "JOIN"] else []) ++
      (if containsStr (lc "GROUP BY") (sql.map upperChar) then [lc "GROUP BY"] else []) ++
      (if containsStr (lc "ORDER BY") (sql.map upperChar) then [lc "ORDER BY"] else []) ++
      (if containsStr (lc "LIMIT") (sql.map upperChar) then [lc "LIMIT"] else [])) ∧
    ((explainSQL (lc "SELECT id FROM users WHERE active=true ORDER BY id")).components.map
        Component.part = [lc "SELECT", lc "FROM", lc "WHERE", lc "ORDER BY"]) := by
  have hparts : (explainSQL sql).components = dmlComp sql ++ fromComp sql ++
      whereComp sql ++ joinComp sql ++ groupComp sql ++ orderComp sql ++ limitComp sql := rfl
  have hdml : ((explainSQL sql).components.map Component.part).filter
      (fun p => dmlParts.contains p) = (specFirstDml sql).toList := by
    rw [hparts]
    unfold whereComp joinComp groupComp orderComp limitComp
    rw [List.map_append, List.map_append, List.map_append, List.map_append,
        List.map_append, List.map_append, List.filter_append, List.filter_append,
        List.filter_append, List.filter_append, List.filter_append, List.filter_append]
    rw [dml_filter, from_filter_dml]
    rw [if_filter_seg _ _ _ (by decide), if_filter_seg _ _ _ (by decide),
        if_filter_seg _ _ _ (by decide), if_filter_seg _ _ _ (by decide),
        if_filter_seg _ _ _ (by decide)]
    simp
  refine ⟨hdml, ?_, ?_, by decide⟩
  · rw [hdml]
    cases specFirstDml sql <;> simp
  · rw [hparts]
    unfold whereComp joinComp groupComp orderComp limitComp
    rw [List.map_append, List.map_append, List.map_append, List.map_append,
        List.map_append, List.map_append, List.filter_append, List.filter_append,
        List.filter_append, List.filter_append, List.filter_append, List.filter_append]
    rw [if_filter_keep _ _ _ (by decide), if_filter_keep _ _ _ (by decide),
        if_filter_keep _ _ _ (by decide), if_filter_keep _ _ _ (by decide),
        if_filter_keep _ _ _ (by decide)]
    rw [dml_filter_six, from_filter_six]
    simp

/-- Claim C1: validateSQL returns isValid = false exactly when none of the ten
validator keywords occurs case-insensitively as a substring of the trimmed
input, and in that case the no-keywords warning is present, so the warning
list is non-empty. -/
theorem validateSQL_invalid_iff_no_keyword (sql dialect : List Char) :
    ((validateSQL sql dialect).isValid = false ↔
      ∀ kw ∈ sqlKeywords, containsStr kw ((trimJS sql).map upperChar) = false) ∧
    ((validateSQL sql dialect).isValid = false →
      noKeywordsWarning ∈ (validateSQL sql dialect).warnings ∧
      (validateSQL sql dialect).warnings ≠ []) := by
  unfold validateSQL
  by_cases h : (sqlKeywords.any (fun kw => containsStr kw ((trimJS sql).map upperChar))) = true
  · simp [h]
    exact List.any_eq_true.mp h
  · rw [Bool.not_eq_true] at h
    rw [List.any_eq_false] at h
    simp [List.any_eq_false.mpr h]
    intro kw hkw
    simpa using h kw hkw

/-- Claim C4 (failing input): for the input "constructor" the JavaScript
lookup schemas[lowerTableType] finds the inherited Object.prototype member,
which is truthy, so getSchemaInfo does not return the generic fallback
record; the case-insensitive lookup of the static keys ("USERS" versus
"users") and the fallback for an ordinary unknown table type ("widgets")
behave as the claim says. -/
theorem getSchemaInfo_at_constructor :
    getSchemaInfo (lc "constructor") = SchemaLookup.inherited (lc "constructor") ∧
    getSchemaInfo (lc "USERS") = getSchemaInfo (lc "users") ∧
    getSchemaInfo (lc "widgets") = SchemaLookup.record
      { commonColumns := [lc "id", lc "name", lc "created_at", lc "updated_at"]
        relationships := [lc "Depends on your specific database schema"]
        examples := [lc "SELECT * FROM widgets LIMIT 10"] } := by
  decide

/-- Claim C5 is false as stated: on "SELECT left FROM a JOIN b" the text
contains a JOIN and no explicit join-type keyword immediately precedes any
JOIN, yet the validator does not append the explicit-join-type suggestion,
because its regular expression INNER|LEFT|RIGHT|FULL|CROSS\s+JOIN accepts
the word "left" occurring anywhere in the text. -/
theorem join_suggestion_claim_false :
    containsStr (lc "JOIN")
        ((trimJS (lc "SELECT left FROM a JOIN b")).map upperChar) = true ∧
    specJoinTypePrecedes (lc "SELECT left FROM a JOIN b") = false ∧
    joinSuggestion ∉
      (validateSQL (lc "SELECT left FROM a JOIN b") (lc "postgresql")).suggestions := by
  decide

/-- Claim C5 as amended: the explicit-join-type suggestion is appended iff the
trimmed upper-cased text contains JOIN and matches none of the alternatives of
the pattern INNER|LEFT|RIGHT|FULL|CROSS\s+JOIN, i.e. contains none of INNER,
LEFT, RIGHT, FULL anywhere and no occurrence of CROSS followed by whitespace
and JOIN. -/
theorem join_suggestion_iff (sql dialect : List Char) :
    joinSuggestion ∈ (validateSQL sql dialect).suggestions ↔
      (containsStr (lc "JOIN") ((trimJS sql).map upperChar) = true ∧
       containsStr (lc "INNER") ((trimJS sql).map upperChar) = false ∧
       containsStr (lc "LEFT") ((trimJS sql).map upperChar) = false ∧
       containsStr (lc "RIGHT") ((trimJS sql).map upperChar) = false ∧
       containsStr (lc "FULL") ((trimJS sql).map upperChar) = false ∧
       crossWsJoin ((trimJS sql).map upperChar) = false) := by
  unfold validateSQL joinTypeRegex
  have hpg : joinSuggestion ≠ pgSuggestion := by decide
  have hmy : joinSuggestion ≠ mysqlSuggestion := by decide
  by_cases h : (containsStr (lc "JOIN") ((trimJS sql).map upperChar) &&
      !(containsStr (lc "INNER") ((trimJS sql).map upperChar) ||
        containsStr (lc "LEFT") ((trimJS sql).map upperChar) ||
        containsStr (lc "RIGHT") ((trimJS sql).map upperChar) ||
        containsStr (lc "FULL") ((trimJS sql).map upperChar) ||
        crossWsJoin ((trimJS sql).map upperChar))) = true
  · simp only [h, if_true]
    simp only [Bool.and_eq_true, Bool.not_eq_true', Bool.or_eq_false_iff] at h
    simp [h.1, h.2.1, h.2.2]
  · rw [Bool.not_eq_true] at h
    simp only [h, if_false, List.nil_append]
    constructor
    · intro hmem
      exfalso
      split_ifs at hmem <;> simp_all
    · intro hc
      exfalso
      rw [Bool.and_eq_false_iff] at h
      rcases h with h | h
      · rw [hc.1] at h
        simp at h
      · simp only [Bool.not_eq_false', Bool.or_eq_true] at h
        rcases h with ((((h | h) | h) | h) | h) <;>
          simp [hc.2.1, hc.2.2.1, hc.2.2.2.1, hc.2.2.2.2.1, hc.2.2.2.2.2] at h

theorem replKw_nil (kw : List Char) (b : Bool) : replKw kw b [] = [] := by
  rw [replKw]

theorem fold_replKw_nil (kws : List (List Char)) :
    kws.foldl (fun acc kw => replKw kw false acc) [] = [] := by
  induction kws with
  | nil => rfl
  | cons k ks ih => simp [replKw_nil, ih]

theorem formatSQL_nil : formatSQL [] = [] := by
  unfold formatSQL
  rw [show collapseWs [] = [] from rfl, fold_replKw_nil]
  rfl

theorem swCI_eq_swStr_upper (kw : List Char) (s : List Char) :
    swCI kw s = swStr kw (s.map upperChar) := by
  induction kw generalizing s with
  | nil => cases s <;> rfl
  | cons k ks ih =>
    cases s with
    | nil => rfl
    | cons c cs => simp [swCI, swStr, ih, Bool.beq_comm]

theorem replaceNotIn_id_of_no_occurrence (s : List Char)
    (h : containsStr (lc "NOT IN") (s.map upperChar) = false) : replaceNotIn s = s := by
  induction s with
  | nil => simp [replaceNotIn]
  | cons c cs ih =>
    rw [List.map_cons, containsStr, Bool.or_eq_false_iff] at h
    rw [replaceNotIn]
    rw [swCI_eq_swStr_upper, List.map_cons]
    simp only [h.1, if_false]
    rw [ih h.2]
    simp

/-- Claim C6: the optimizer's output query is the input with every
case-insensitive occurrence of NOT IN replaced by NOT EXISTS (left-to-right,
non-overlapping, as replace(/NOT IN/gi, ...) does), and when no occurrence
exists the output is the input verbatim. -/
theorem optimizeSQL_optimized_eq_replace (sql : List Char) :
    (optimizeSQL sql).optimized = replaceNotIn sql ∧
    (containsStr (lc "NOT IN") (sql.map upperChar) = false →
      (optimizeSQL sql).optimized = sql) := by
  unfold optimizeSQL
  by_cases h : containsStr (lc "NOT IN") (sql.map upperChar) = true
  · simp [h]
  · rw [Bool.not_eq_true] at h
    simp [h, replaceNotIn_id_of_no_occurrence sql h]

theorem optimizeSQL_perf_eq (sql : List Char) :
    (optimizeSQL sql).performance =
      (if 2 < (optimizeSQL sql).improvements.length then multiPerf else relOptPerf) := rfl

theorem optimizeSQL_last_note (sql : List Char) :
    (optimizeSQL sql).improvements.getLast? = some explainNote := by
  unfold optimizeSQL
  simp

/-- Claim C7: the optimizer reports "multiple optimization opportunities"
exactly when strictly more than two improvement notes accumulated, and
"relatively optimized" otherwise; the constant EXPLAIN note is always the
last improvement, so the list is never empty and the note counts toward the
threshold. -/
theorem optimizeSQL_performance_threshold (sql : List Char) :
    ((optimizeSQL sql).performance = multiPerf ↔
      2 < (optimizeSQL sql).improvements.length) ∧
    ((optimizeSQL sql).performance = relOptPerf ↔
      (optimizeSQL sql).improvements.length ≤ 2) ∧
    (optimizeSQL sql).improvements.getLast? = some explainNote ∧
    (optimizeSQL sql).improvements ≠ [] := by
  have hne : multiPerf ≠ relOptPerf := by decide
  have hne2 : relOptPerf ≠ multiPerf := by decide
  refine ⟨?_, ?_, optimizeSQL_last_note sql, ?_⟩
  · rw [optimizeSQL_perf_eq]
    by_cases h : 2 < (optimizeSQL sql).improvements.length
    · simp [h]
    · simp [h, hne2]
  · rw [optimizeSQL_perf_eq]
    by_cases h : 2 < (optimizeSQL sql).improvements.length
    · simp [h, hne, Nat.not_le.mpr h]
    · simp [h, Nat.not_lt.mp h]
  · intro hnil
    have := optimizeSQL_last_note sql
    rw [hnil] at this
    simp at this

/-- Claim C8 (failing input): on the input "__proto__" the schema lookup
returns the inherited Object.prototype member instead of a well-formed
SchemaInfo record; the other analysis functions are total, and on empty input
the validator yields isValid = false with the no-keywords warning while the
formatter, explainer and optimizer return their well-formed empty-input
records. -/
theorem analysis_empty_input_and_proto :
    getSchemaInfo (lc "__proto__") = SchemaLookup.inherited (lc "__proto__") ∧
    (validateSQL [] (lc "postgresql")).isValid = false ∧
    noKeywordsWarning ∈ (validateSQL [] (lc "postgresql")).warnings ∧
    formatSQL [] = [] ∧
    (explainSQL []).explanation = lc "This SQL query " ∧
    (explainSQL []).components = [] ∧
    (optimizeSQL []).optimized = [] ∧
    (optimizeSQL []).improvements = [explainNote] ∧
    (optimizeSQL []).performance = relOptPerf := by
  refine ⟨by decide, by decide, by decide, formatSQL_nil, by decide, by decide,
    by decide, by decide, by decide⟩

/-- Claim C9: the intent-match score is the judge's confidence when
matchesIntent is true, defaulting to 0.9 when the confidence field is
missing, and 0.2 whenever matchesIntent is false or missing, regardless of
confidence; the computation is total. -/
theorem intentScore_defaulting (r : IntentVerdict) :
    (intentScore r =
      if r.matchesIntent = some true then r.confidence.getD (9/10) else (1/5 : ℚ)) ∧
    intentScore ⟨some true, none⟩ = 9/10 ∧
    intentScore ⟨some false, some 1⟩ = 1/5 ∧
    intentScore ⟨none, some 1⟩ = 1/5 := by
  refine ⟨?_, by norm_num [intentScore, truthy], by norm_num [intentScore, truthy],
    by norm_num [intentScore, truthy]⟩
  obtain ⟨m, c⟩ := r
  rcases m with _ | b
  · simp [intentScore, truthy]
  · cases b <;> simp [intentScore, truthy]

/-- Claim C10: the correctness score equals the clamp to [0, 1] of
base * confidence, where base is 1 minus 0.5 unless isSyntacticallyCorrect is
true, minus 0.2 unless hasBestPractices is true, minus 0.3 if securityIssues
is present and non-empty, and confidence defaults to 1; consequently the
score always lies in [0, 1]. -/
theorem correctnessScore_formula_and_bounds (r : CorrectnessVerdict) :
    (correctnessScore r =
      max 0 (min 1 ((1 - (if truthy r.isSyntacticallyCorrect then 0 else 1/2)
        - (if truthy r.hasBestPractices then 0 else 1/5)
        - (if issuesNonempty r.securityIssues then (3/10 : ℚ) else 0)) *
          r.confidence.getD 1))) ∧
    0 ≤ correctnessScore r ∧ correctnessScore r ≤ 1 := by
  obtain ⟨a, b, si, conf⟩ := r
  refine ⟨?_, le_max_left _ _, max_le (by norm_num) (min_le_left _ _)⟩
  simp only [correctnessScore]
  split_ifs <;> ring_nf
